import Mathlib

/-!
Verification development for `src/src/ASPHERE/compute_temp_asphere.cpp`
(LAMMPS compute temp/asphere).

The C++ code is shallowly embedded over exact rational arithmetic (`ℚ`
stands for `double`).  Particle data lives in per-worker lists; the MPI
`Allreduce` sum reduction is the sum of the per-worker partial sums.
External collaborators (the bias compute, the fix registry, the group
count oracle, physical constants) are modelled as record fields holding
the values the core reads through their interfaces.
-/

namespace TempAsphere

/-- A 3-vector of rationals, standing for a `double[3]`. -/
structure Vec3 where
  x : ℚ
  y : ℚ
  z : ℚ
deriving DecidableEq

/-- A quaternion `(w,i,j,k)`, standing for a `double[4]` orientation. -/
structure Quat where
  w : ℚ
  i : ℚ
  j : ℚ
  k : ℚ
deriving DecidableEq

/-- A 3x3 matrix, standing for a `double[3][3]`. -/
structure Mat3 where
  m00 : ℚ
  m01 : ℚ
  m02 : ℚ
  m10 : ℚ
  m11 : ℚ
  m12 : ℚ
  m20 : ℚ
  m21 : ℚ
  m22 : ℚ
deriving DecidableEq

/-- The six accumulated tensor components, in the source's order
`t[0..5] = xx, yy, zz, xy, xz, yz`. -/
structure Vec6 where
  xx : ℚ
  yy : ℚ
  zz : ℚ
  xy : ℚ
  xz : ℚ
  yz : ℚ
deriving DecidableEq

instance : Zero Vec6 := ⟨⟨0, 0, 0, 0, 0, 0⟩⟩

instance : Add Vec6 :=
  ⟨fun a b => ⟨a.xx + b.xx, a.yy + b.yy, a.zz + b.zz,
               a.xy + b.xy, a.xz + b.xz, a.yz + b.yz⟩⟩

/-- Modelled from the spec: `MathExtra::quat_to_mat` (the file
`math_extra.cpp` is not part of the sources given); "R(q) is the rotation
matrix equivalent to q", the standard rotation matrix of a quaternion. -/
def quat_to_mat (q : Quat) : Mat3 :=
  let w2 := q.w * q.w
  let i2 := q.i * q.i
  let j2 := q.j * q.j
  let k2 := q.k * q.k
  let twoij := 2 * q.i * q.j
  let twoik := 2 * q.i * q.k
  let twojk := 2 * q.j * q.k
  let twoiw := 2 * q.i * q.w
  let twojw := 2 * q.j * q.w
  let twokw := 2 * q.k * q.w
  ⟨w2 + i2 - j2 - k2, twoij - twokw, twoik + twojw,
   twoij + twokw, w2 - i2 + j2 - k2, twojk - twoiw,
   twoik - twojw, twojk + twoiw, w2 - i2 - j2 + k2⟩

/-- Modelled from the spec: `MathExtra::transpose_matvec` (from the
missing `math_extra.cpp`); multiply the transpose of `m` by `v`, giving
"ω_body = Rᵗ(q)·L". -/
def transpose_matvec (m : Mat3) (v : Vec3) : Vec3 :=
  ⟨m.m00 * v.x + m.m10 * v.y + m.m20 * v.z,
   m.m01 * v.x + m.m11 * v.y + m.m21 * v.z,
   m.m02 * v.x + m.m12 * v.y + m.m22 * v.z⟩

/-- One record of the ellipsoid bonus store (`AtomVecEllipsoid::Bonus`):
semi-axes `shape` and orientation quaternion `quat`. -/
structure Bonus where
  shape : Vec3
  quat : Quat

/-- One particle of the external atom store: velocity, lab-frame angular
momentum, mass, group bitmask word, and index into the bonus store
(negative for a point particle, as in `atom->ellipsoid`). -/
structure Particle where
  v : Vec3
  angmom : Vec3
  rmass : ℚ
  mask : Nat
  ellipsoid : Int
deriving DecidableEq

/-- The group-membership test `mask[i] & groupbit`. -/
def inGroup (groupbit : Nat) (p : Particle) : Bool :=
  p.mask &&& groupbit != 0

/-- Principal moments of inertia of the uniform ellipsoid
(`compute_temp_asphere.cpp` lines 182-184 / 251-253):
`inertia[0] = rmass*(shape[1]^2+shape[2]^2)/5` and cyclic. -/
def inertiaOf (rmass : ℚ) (shape : Vec3) : Vec3 :=
  ⟨rmass * (shape.y * shape.y + shape.z * shape.z) / 5,
   rmass * (shape.x * shape.x + shape.z * shape.z) / 5,
   rmass * (shape.x * shape.x + shape.y * shape.y) / 5⟩

/-- Body-frame angular velocity (lines 188-192 / 257-261):
`wbody = transpose(quat_to_mat quat) * angmom`, divided componentwise by
the principal moments of inertia. -/
def wbodyOf (quat : Quat) (angmom : Vec3) (inertia : Vec3) : Vec3 :=
  let rot := quat_to_mat quat
  let w := transpose_matvec rot angmom
  ⟨w.x / inertia.x, w.y / inertia.y, w.z / inertia.z⟩

/-- Per-particle contribution of the scalar pass (lines 175-195):
translational `(vx^2+vy^2+vz^2)*rmass` plus rotational
`I0*w0^2 + I1*w1^2 + I2*w2^2`. -/
def scalarContrib (bonus : Nat → Bonus) (p : Particle) : ℚ :=
  let shape := (bonus p.ellipsoid.toNat).shape
  let quat := (bonus p.ellipsoid.toNat).quat
  let trans := (p.v.x * p.v.x + p.v.y * p.v.y + p.v.z * p.v.z) * p.rmass
  let inertia := inertiaOf p.rmass shape
  let wbody := wbodyOf quat p.angmom inertia
  trans + (inertia.x * wbody.x * wbody.x +
           inertia.y * wbody.y * wbody.y +
           inertia.z * wbody.z * wbody.z)

/-- Per-particle contribution of the tensor pass (lines 236-270); the six
components in the order `xx, yy, zz, xy, xz, yz`, translational part
first, then the rotational part with the source's pairing
`t[3] += I0*w0*w1; t[4] += I1*w0*w2; t[5] += I2*w1*w2`. -/
def tensorContrib (bonus : Nat → Bonus) (p : Particle) : Vec6 :=
  let shape := (bonus p.ellipsoid.toNat).shape
  let quat := (bonus p.ellipsoid.toNat).quat
  let massone := p.rmass
  let inertia := inertiaOf p.rmass shape
  let wbody := wbodyOf quat p.angmom inertia
  ⟨massone * p.v.x * p.v.x + inertia.x * wbody.x * wbody.x,
   massone * p.v.y * p.v.y + inertia.y * wbody.y * wbody.y,
   massone * p.v.z * p.v.z + inertia.z * wbody.z * wbody.z,
   massone * p.v.x * p.v.y + inertia.x * wbody.x * wbody.y,
   massone * p.v.x * p.v.z + inertia.y * wbody.x * wbody.z,
   massone * p.v.y * p.v.z + inertia.z * wbody.y * wbody.z⟩

/-- The local scalar accumulation loop (lines 172-196) over one worker's
particles. -/
def accumScalarLocal (bonus : Nat → Bonus) (groupbit : Nat)
    (atoms : List Particle) : ℚ :=
  atoms.foldl (fun t p => if inGroup groupbit p then t + scalarContrib bonus p else t) 0

/-- The local tensor accumulation loop (lines 233-271) over one worker's
particles. -/
def accumTensorLocal (bonus : Nat → Bonus) (groupbit : Nat)
    (atoms : List Particle) : Vec6 :=
  atoms.foldl (fun t p => if inGroup groupbit p then t + tensorContrib bonus p else t) 0

/-- The globally reduced scalar energy sum: `MPI_Allreduce` (line 200) of
the per-worker partial sums. -/
def scalarRawSum (bonus : Nat → Bonus) (groupbit : Nat)
    (workers : List (List Particle)) : ℚ :=
  (workers.map (accumScalarLocal bonus groupbit)).sum

/-- The globally reduced tensor sum: `MPI_Allreduce` (line 275) of the
per-worker six-component partial sums. -/
def tensorRawSum (bonus : Nat → Bonus) (groupbit : Nat)
    (workers : List (List Particle)) : Vec6 :=
  (workers.map (accumTensorLocal bonus groupbit)).sum

/-- The interface of the optional bias compute (`tbias`), an external
collaborator: its style string, group, capability flags (`tempflag`,
`tempbias`), its `dof_remove(-1)` value and per-particle `dof_remove`
predicate, its bulk `remove_bias_all`/`restore_bias_all` acting on a
worker's particle list, and its single-particle
`remove_bias`/`restore_bias`. -/
structure Bias where
  style : String
  igroup : Nat
  tempflag : Bool
  tempbias : Bool
  dofRemoveGlobal : ℚ
  dofRemove : Particle → Bool
  removeBiasAll : List Particle → List Particle
  restoreBiasAll : List Particle → List Particle
  removeBiasOne : Nat → Vec3 → Vec3
  restoreBiasOne : Nat → Vec3 → Vec3

/-- The mutable members of `ComputeTempAsphere` (and of its `Compute`
base) that the embedded methods read or write.  `tempbias` is the int
flag (0 = no bias, 1 = generic bias, 2 = region bias after `init`);
`id_bias` is `some` exactly when the constructor received a bias ID
(the constructor couples `tempbias = 1` with a non-null `id_bias`, so
`id_bias` is the configured-bias marker used by `init`). -/
structure ComputeState where
  groupbit : Nat
  igroup : Nat
  id_bias : Option String
  tempbias : Nat
  tbias : Option Bias
  fix_dof : ℚ
  extra_dof : ℚ
  dof : ℚ
  tfactor : ℚ
  dynamic : Bool
  scalar : ℚ
  vector : Vec6
  invoked_scalar : Int
  invoked_vector : Int

/-- The read-only environment: the bonus store, physical constants
(`force->mvv2e`, `force->boltz`), the dimensionality
(`domain->dimension`), and the fix registry (each fix's `dof(igroup)`
report, as read by `init`). -/
structure Env where
  bonus : Nat → Bonus
  dimension : Nat
  mvv2e : ℚ
  boltz : ℚ
  fixes : List (Nat → ℚ)

/-- The group-count oracle `group->count(igroup)`: the number of
particles of the group over all workers, counted once globally. -/
def groupCount (groupbit : Nat) (workers : List (List Particle)) : ℚ :=
  ((workers.map (fun atoms => (atoms.filter (inGroup groupbit)).length)).sum : ℕ)

/-- One worker's count of group particles for which the region bias's
`dof_remove(i)` is nonzero (lines 129-134). -/
def dofRemoveCountLocal (groupbit : Nat) (b : Bias)
    (atoms : List Particle) : Nat :=
  (atoms.filter (fun p => inGroup groupbit p && b.dofRemove p)).length

/-- The `MPI_Allreduce` (line 136) of the per-worker removal counts. -/
def dofRemoveCountAll (groupbit : Nat) (b : Bias)
    (workers : List (List Particle)) : Nat :=
  (workers.map (dofRemoveCountLocal groupbit b)).sum

/-- `ComputeTempAsphere::dof_compute` (lines 114-143): base
`nper*natoms` with `nper = 6` (3 if 2d), bias adjustments by `tempbias`
kind, subtraction of `extra_dof + fix_dof`, and the temperature scale
factor, zero whenever the resulting dof is not positive.  The `none`
branches of the matches are unreachable after `init`, which sets
`tbias` whenever it sets `tempbias` to 1 or 2. -/
def dof_compute (env : Env) (workers : List (List Particle))
    (s : ComputeState) : ComputeState :=
  let natoms := groupCount s.groupbit workers
  let nper : ℚ := if env.dimension = 2 then 3 else 6
  let base := nper * natoms
  let adjusted :=
    if s.tempbias = 1 then
      match s.tbias with
      | some b => base - b.dofRemoveGlobal * natoms
      | none => base
    else if s.tempbias = 2 then
      match s.tbias with
      | some b => base - nper * (dofRemoveCountAll s.groupbit b workers : ℕ)
      | none => base
    else base
  let d := adjusted - (s.extra_dof + s.fix_dof)
  let tf := if 0 < d then env.mvv2e / (d * env.boltz) else 0
  { s with dof := d, tfactor := tf }

/-- The bulk bias removal step guarded by `if (tempbias)` (lines 151-154
and 214-217): each worker's particle list after `tbias->remove_bias_all()`. -/
def stripWorkers (s : ComputeState) (workers : List (List Particle)) :
    List (List Particle) :=
  if s.tempbias ≠ 0 then
    match s.tbias with
    | some b => workers.map b.removeBiasAll
    | none => workers
  else workers

/-- The bulk bias restoration step guarded by `if (tempbias)` (lines 198
and 273): each worker's particle list after `tbias->restore_bias_all()`. -/
def restoreWorkers (s : ComputeState) (workers : List (List Particle)) :
    List (List Particle) :=
  if s.tempbias ≠ 0 then
    match s.tbias with
    | some b => workers.map b.restoreBiasAll
    | none => workers
  else workers

/-- Result of one `compute_scalar` evaluation: the returned value, the
updated member state, and the particle data as left behind (velocities
after the remove/restore bracket). -/
structure ScalarResult where
  value : ℚ
  state : ComputeState
  workers : List (List Particle)

/-- Result of one `compute_vector` evaluation. -/
structure VectorResult where
  value : Vec6
  state : ComputeState
  workers : List (List Particle)

/-- `ComputeTempAsphere::compute_scalar` (lines 147-204): stamp
`invoked_scalar`, bulk-remove the bias if one is configured, accumulate
and reduce the energy sum, bulk-restore the bias, recompute the dof if
`dynamic || tempbias == 2`, and return the reduced sum times `tfactor`. -/
def compute_scalar (env : Env) (workers : List (List Particle))
    (step : Int) (s : ComputeState) : ScalarResult :=
  let s1 := { s with invoked_scalar := step }
  let stripped := stripWorkers s1 workers
  let raw := scalarRawSum env.bonus s1.groupbit stripped
  let restored := restoreWorkers s1 stripped
  let s2 := if s1.dynamic = true ∨ s1.tempbias = 2
            then dof_compute env restored s1 else s1
  let val := raw * s2.tfactor
  ⟨val, { s2 with scalar := val }, restored⟩

/-- `ComputeTempAsphere::compute_vector` (lines 208-277): stamp
`invoked_vector`, bulk-remove the bias if one is configured, accumulate
and reduce the six tensor components, bulk-restore the bias, and scale
each reduced component by `force->mvv2e` (no dof factor, no dof
recomputation). -/
def compute_vector (env : Env) (workers : List (List Particle))
    (step : Int) (s : ComputeState) : VectorResult :=
  let s1 := { s with invoked_vector := step }
  let stripped := stripWorkers s1 workers
  let raw := tensorRawSum env.bonus s1.groupbit stripped
  let restored := restoreWorkers s1 stripped
  let val : Vec6 := ⟨env.mvv2e * raw.xx, env.mvv2e * raw.yy, env.mvv2e * raw.zz,
                     env.mvv2e * raw.xy, env.mvv2e * raw.xz, env.mvv2e * raw.yz⟩
  ⟨val, { s1 with vector := val }, restored⟩

/-- `ComputeTempAsphere::init` (lines 77-110): reject any group particle
without an ellipsoid record; resolve the bias ID in the compute registry
and check its `tempflag`, `tempbias` and group; set `tempbias` to 2 for
a `temp/region` bias and 1 otherwise; store the fix registry's dof sum
in `fix_dof`; finally run `dof_compute`. -/
def init (env : Env) (workers : List (List Particle))
    (registry : List (String × Bias)) (s : ComputeState) :
    Except String ComputeState :=
  if (workers.flatten).any (fun p => inGroup s.groupbit p && p.ellipsoid < 0) then
    .error "Compute temp/asphere requires extended particles"
  else
    match s.id_bias with
    | none =>
      let fd := (env.fixes.map (fun f => f s.igroup)).sum
      .ok (dof_compute env workers { s with fix_dof := fd })
    | some id =>
      match registry.find? (fun pr => pr.1 == id) with
      | none => .error "Could not find compute ID for temperature bias"
      | some pr =>
        if pr.2.tempflag = false then
          .error "Bias compute does not calculate temperature"
        else if pr.2.tempbias = false then
          .error "Bias compute does not calculate a velocity bias"
        else if pr.2.igroup ≠ s.igroup then
          .error "Bias compute group does not match compute group"
        else
          let tb := if pr.2.style == "temp/region" then 2 else 1
          let fd := (env.fixes.map (fun f => f s.igroup)).sum
          .ok (dof_compute env workers
            { s with tbias := some pr.2, tempbias := tb, fix_dof := fd })

/-- `ComputeTempAsphere::remove_bias` (lines 283-286): delegate to the
bias handle's single-particle `remove_bias` when one is set (`tbias`
member), identity otherwise. -/
def remove_bias (tbias : Option Bias) (i : Nat) (v : Vec3) : Vec3 :=
  match tbias with
  | some b => b.removeBiasOne i v
  | none => v

/-- `ComputeTempAsphere::restore_bias` (lines 293-296): delegate to the
bias handle's single-particle `restore_bias` when one is set, identity
otherwise. -/
def restore_bias (tbias : Option Bias) (i : Nat) (v : Vec3) : Vec3 :=
  match tbias with
  | some b => b.restoreBiasOne i v
  | none => v

/-! ### Helper lemmas -/

/-- Trace of the six-component accumulator: sum of `xx`, `yy`, `zz`. -/
def vtrace (t : Vec6) : ℚ :=
  t.xx + t.yy + t.zz

lemma Vec6_add_def (a b : Vec6) :
    a + b = ⟨a.xx + b.xx, a.yy + b.yy, a.zz + b.zz,
             a.xy + b.xy, a.xz + b.xz, a.yz + b.yz⟩ := rfl

lemma vtrace_add (a b : Vec6) : vtrace (a + b) = vtrace a + vtrace b := by
  simp [vtrace, Vec6_add_def]
  ring

lemma tensorContrib_trace (bonus : Nat → Bonus) (p : Particle) :
    vtrace (tensorContrib bonus p) = scalarContrib bonus p := by
  simp [vtrace, tensorContrib, scalarContrib]
  ring

lemma accumTensor_trace (bonus : Nat → Bonus) (g : Nat) :
    ∀ (atoms : List Particle) (t : Vec6),
      vtrace (atoms.foldl
          (fun t p => if inGroup g p then t + tensorContrib bonus p else t) t) =
        atoms.foldl
          (fun t p => if inGroup g p then t + scalarContrib bonus p else t) (vtrace t) := by
  intro atoms
  induction atoms with
  | nil => intro t; rfl
  | cons p rest ih =>
    intro t
    by_cases h : inGroup g p
    · simp [List.foldl, h, ih, vtrace_add, tensorContrib_trace]
    · simp [List.foldl, h, ih]

lemma vtrace_zero : vtrace (0 : Vec6) = 0 := by
  show (0 : ℚ) + 0 + 0 = 0
  norm_num

lemma accumTensorLocal_trace (bonus : Nat → Bonus) (g : Nat)
    (atoms : List Particle) :
    vtrace (accumTensorLocal bonus g atoms) = accumScalarLocal bonus g atoms := by
  have h := accumTensor_trace bonus g atoms 0
  rw [vtrace_zero] at h
  exact h

lemma rawSum_trace (bonus : Nat → Bonus) (g : Nat)
    (workers : List (List Particle)) :
    vtrace (tensorRawSum bonus g workers) = scalarRawSum bonus g workers := by
  induction workers with
  | nil => exact vtrace_zero
  | cons a l ih =>
    simp only [tensorRawSum, scalarRawSum, List.map, List.sum_cons, vtrace_add] at *
    rw [ih, accumTensorLocal_trace]

lemma dofCompute_tfactor_zero (env : Env) (workers : List (List Particle))
    (s : ComputeState) (h : (dof_compute env workers s).dof ≤ 0) :
    (dof_compute env workers s).tfactor = 0 := by
  simp only [dof_compute] at h ⊢
  rw [if_neg (not_lt.mpr h)]

lemma stripWorkers_scalar_stamp (s : ComputeState) (step : Int)
    (workers : List (List Particle)) :
    stripWorkers { s with invoked_scalar := step } workers = stripWorkers s workers := rfl

lemma stripWorkers_vector_stamp (s : ComputeState) (step : Int)
    (workers : List (List Particle)) :
    stripWorkers { s with invoked_vector := step } workers = stripWorkers s workers := rfl

lemma compute_scalar_value (env : Env) (ws : List (List Particle))
    (step : Int) (s : ComputeState) :
    (compute_scalar env ws step s).value =
      scalarRawSum env.bonus s.groupbit (stripWorkers s ws) *
        (compute_scalar env ws step s).state.tfactor := rfl

lemma compute_scalar_workers (env : Env) (ws : List (List Particle))
    (step : Int) (s : ComputeState) :
    (compute_scalar env ws step s).workers =
      restoreWorkers s (stripWorkers s ws) := rfl

lemma compute_vector_workers (env : Env) (ws : List (List Particle))
    (step : Int) (s : ComputeState) :
    (compute_vector env ws step s).workers =
      restoreWorkers s (stripWorkers s ws) := rfl

lemma compute_scalar_state_static (env : Env) (ws : List (List Particle))
    (step : Int) (s : ComputeState)
    (hc : ¬ (s.dynamic = true ∨ s.tempbias = 2)) :
    (compute_scalar env ws step s).state.tfactor = s.tfactor ∧
    (compute_scalar env ws step s).state.dof = s.dof := by
  constructor
  · simp only [compute_scalar]
    rw [if_neg hc]
  · simp only [compute_scalar]
    rw [if_neg hc]

lemma compute_scalar_state_recompute (env : Env) (ws : List (List Particle))
    (step : Int) (s : ComputeState)
    (hc : s.dynamic = true ∨ s.tempbias = 2) :
    (compute_scalar env ws step s).state.tfactor =
      (dof_compute env (restoreWorkers s (stripWorkers s ws)) s).tfactor ∧
    (compute_scalar env ws step s).state.dof =
      (dof_compute env (restoreWorkers s (stripWorkers s ws)) s).dof := by
  constructor
  · simp only [compute_scalar]
    rw [if_pos hc]
    rfl
  · simp only [compute_scalar]
    rw [if_pos hc]
    rfl

/-! ### Concrete sample data (used by counterexamples and witnesses) -/

/-- A bonus store whose every record has semi-axes `(1,2,3)` and the
identity quaternion. -/
def sampleBonus : Nat → Bonus := fun _ => ⟨⟨1, 2, 3⟩, ⟨1, 0, 0, 0⟩⟩

/-- A particle of mass 5 at rest with angular momentum `(13,20,15)`;
its principal moments are `(13,10,5)` and its body angular velocity is
`(1,2,3)`. -/
def samplePart : Particle := ⟨⟨0, 0, 0⟩, ⟨13, 20, 15⟩, 5, 1, 0⟩

/-- A region-style bias handle whose removal subtracts 1 from each x
velocity and whose restoration adds it back. -/
def sampleBias : Bias :=
  { style := "temp/region", igroup := 0, tempflag := true, tempbias := true,
    dofRemoveGlobal := 3,
    dofRemove := fun p => p.ellipsoid == 0,
    removeBiasAll := fun atoms =>
      atoms.map (fun p => { p with v := ⟨p.v.x - 1, p.v.y, p.v.z⟩ }),
    restoreBiasAll := fun atoms =>
      atoms.map (fun p => { p with v := ⟨p.v.x + 1, p.v.y, p.v.z⟩ }),
    removeBiasOne := fun _ v => ⟨v.x - 1, v.y, v.z⟩,
    restoreBiasOne := fun _ v => ⟨v.x + 1, v.y, v.z⟩ }

/-- A 3d environment with unit conversion constants and two fixes
reporting 3 and 4 degrees of freedom. -/
def sampleEnv : Env :=
  { bonus := sampleBonus, dimension := 3, mvv2e := 1, boltz := 1,
    fixes := [fun _ => 3, fun _ => 4] }

/-- Two workers, the first owning the sample particle. -/
def sampleWorkers : List (List Particle) := [[samplePart], []]

/-- A base compute state: group bitmask 1, no bias, `extra_dof = 2`,
stored `fix_dof = 1`, static dof. -/
def sampleState : ComputeState :=
  { groupbit := 1, igroup := 0, id_bias := none, tempbias := 0, tbias := none,
    fix_dof := 1, extra_dof := 2, dof := 0, tfactor := 0, dynamic := false,
    scalar := 0, vector := 0, invoked_scalar := 0, invoked_vector := 0 }

/-- The base state with a region-local bias configured. -/
def sampleStateRegion : ComputeState :=
  { sampleState with tempbias := 2, tbias := some sampleBias }

/-- The base state with dynamic dof recomputation. -/
def sampleStateDyn : ComputeState :=
  { sampleState with dynamic := true }

/-! ### Claims -/

/-- C1 (amended): for every monitored particle, `compute_vector` adds the
off-diagonal rotational cross terms `Ix·ωx·ωy`, `Iy·ωx·ωz`, `Iz·ωy·ωz` to
the tensor components in fixed order xy, xz, yz respectively (the inertia
factor matches the diagonal each component is associated with, while the
two angular-velocity factors match the component's Cartesian index pair). -/
theorem rotational_cross_terms (bonus : Nat → Bonus) (p : Particle) :
    (tensorContrib bonus p).xy =
      p.rmass * p.v.x * p.v.y +
        (inertiaOf p.rmass (bonus p.ellipsoid.toNat).shape).x *
        (wbodyOf (bonus p.ellipsoid.toNat).quat p.angmom
          (inertiaOf p.rmass (bonus p.ellipsoid.toNat).shape)).x *
        (wbodyOf (bonus p.ellipsoid.toNat).quat p.angmom
          (inertiaOf p.rmass (bonus p.ellipsoid.toNat).shape)).y ∧
    (tensorContrib bonus p).xz =
      p.rmass * p.v.x * p.v.z +
        (inertiaOf p.rmass (bonus p.ellipsoid.toNat).shape).y *
        (wbodyOf (bonus p.ellipsoid.toNat).quat p.angmom
          (inertiaOf p.rmass (bonus p.ellipsoid.toNat).shape)).x *
        (wbodyOf (bonus p.ellipsoid.toNat).quat p.angmom
          (inertiaOf p.rmass (bonus p.ellipsoid.toNat).shape)).z ∧
    (tensorContrib bonus p).yz =
      p.rmass * p.v.y * p.v.z +
        (inertiaOf p.rmass (bonus p.ellipsoid.toNat).shape).z *
        (wbodyOf (bonus p.ellipsoid.toNat).quat p.angmom
          (inertiaOf p.rmass (bonus p.ellipsoid.toNat).shape)).y *
        (wbodyOf (bonus p.ellipsoid.toNat).quat p.angmom
          (inertiaOf p.rmass (bonus p.ellipsoid.toNat).shape)).z :=
  ⟨rfl, rfl, rfl⟩

/-- C1 (counterexample): at the sample particle (at rest, principal
moments `(13,10,5)`, body angular velocity `(1,2,3)`), the tensor
contributions to xz and yz are not `Iy·ωy·ωz` and `Iz·ωz·ωx` as the
claim states: the code adds `Iy·ωx·ωz` and `Iz·ωy·ωz`. -/
theorem rotational_cross_terms_counterexample :
    ¬ ((tensorContrib sampleBonus samplePart).xy =
         samplePart.rmass * samplePart.v.x * samplePart.v.y +
           (inertiaOf samplePart.rmass (sampleBonus 0).shape).x *
           (wbodyOf (sampleBonus 0).quat samplePart.angmom
             (inertiaOf samplePart.rmass (sampleBonus 0).shape)).x *
           (wbodyOf (sampleBonus 0).quat samplePart.angmom
             (inertiaOf samplePart.rmass (sampleBonus 0).shape)).y ∧
       (tensorContrib sampleBonus samplePart).xz =
         samplePart.rmass * samplePart.v.x * samplePart.v.z +
           (inertiaOf samplePart.rmass (sampleBonus 0).shape).y *
           (wbodyOf (sampleBonus 0).quat samplePart.angmom
             (inertiaOf samplePart.rmass (sampleBonus 0).shape)).y *
           (wbodyOf (sampleBonus 0).quat samplePart.angmom
             (inertiaOf samplePart.rmass (sampleBonus 0).shape)).z ∧
       (tensorContrib sampleBonus samplePart).yz =
         samplePart.rmass * samplePart.v.y * samplePart.v.z +
           (inertiaOf samplePart.rmass (sampleBonus 0).shape).z *
           (wbodyOf (sampleBonus 0).quat samplePart.angmom
             (inertiaOf samplePart.rmass (sampleBonus 0).shape)).z *
           (wbodyOf (sampleBonus 0).quat samplePart.angmom
             (inertiaOf samplePart.rmass (sampleBonus 0).shape)).x) := by
  intro h
  have h2 := h.2.1
  simp only [samplePart, sampleBonus, tensorContrib, inertiaOf, wbodyOf,
    quat_to_mat, transpose_matvec] at h2
  norm_num at h2

/-- C2: the per-particle kernel computes the principal moments
`Ix = m(b²+c²)/5`, `Iy = m(a²+c²)/5`, `Iz = m(a²+b²)/5`, the body-frame
angular velocity as the transposed rotation matrix of the quaternion
applied to the angular momentum, divided componentwise by the moments,
and contributes `Ix·ωx² + Iy·ωy² + Iz·ωz²` on top of the translational
term to the scalar accumulation for a monitored particle. -/
theorem scalar_kernel (bonus : Nat → Bonus) (p : Particle) (groupbit : Nat) :
    (inertiaOf p.rmass (bonus p.ellipsoid.toNat).shape).x =
      p.rmass * ((bonus p.ellipsoid.toNat).shape.y * (bonus p.ellipsoid.toNat).shape.y +
        (bonus p.ellipsoid.toNat).shape.z * (bonus p.ellipsoid.toNat).shape.z) / 5 ∧
    (inertiaOf p.rmass (bonus p.ellipsoid.toNat).shape).y =
      p.rmass * ((bonus p.ellipsoid.toNat).shape.x * (bonus p.ellipsoid.toNat).shape.x +
        (bonus p.ellipsoid.toNat).shape.z * (bonus p.ellipsoid.toNat).shape.z) / 5 ∧
    (inertiaOf p.rmass (bonus p.ellipsoid.toNat).shape).z =
      p.rmass * ((bonus p.ellipsoid.toNat).shape.x * (bonus p.ellipsoid.toNat).shape.x +
        (bonus p.ellipsoid.toNat).shape.y * (bonus p.ellipsoid.toNat).shape.y) / 5 ∧
    (∀ quat L I, wbodyOf quat L I =
      ⟨(transpose_matvec (quat_to_mat quat) L).x / I.x,
       (transpose_matvec (quat_to_mat quat) L).y / I.y,
       (transpose_matvec (quat_to_mat quat) L).z / I.z⟩) ∧
    (inGroup groupbit p = true →
      accumScalarLocal bonus groupbit [p] =
        (p.v.x * p.v.x + p.v.y * p.v.y + p.v.z * p.v.z) * p.rmass +
        ((inertiaOf p.rmass (bonus p.ellipsoid.toNat).shape).x *
           (wbodyOf (bonus p.ellipsoid.toNat).quat p.angmom
             (inertiaOf p.rmass (bonus p.ellipsoid.toNat).shape)).x *
           (wbodyOf (bonus p.ellipsoid.toNat).quat p.angmom
             (inertiaOf p.rmass (bonus p.ellipsoid.toNat).shape)).x +
         (inertiaOf p.rmass (bonus p.ellipsoid.toNat).shape).y *
           (wbodyOf (bonus p.ellipsoid.toNat).quat p.angmom
             (inertiaOf p.rmass (bonus p.ellipsoid.toNat).shape)).y *
           (wbodyOf (bonus p.ellipsoid.toNat).quat p.angmom
             (inertiaOf p.rmass (bonus p.ellipsoid.toNat).shape)).y +
         (inertiaOf p.rmass (bonus p.ellipsoid.toNat).shape).z *
           (wbodyOf (bonus p.ellipsoid.toNat).quat p.angmom
             (inertiaOf p.rmass (bonus p.ellipsoid.toNat).shape)).z *
           (wbodyOf (bonus p.ellipsoid.toNat).quat p.angmom
             (inertiaOf p.rmass (bonus p.ellipsoid.toNat).shape)).z)) := by
  refine ⟨rfl, rfl, rfl, fun quat L I => rfl, fun h => ?_⟩
  simp only [accumScalarLocal, List.foldl, h, if_true, zero_add]
  rfl

/-- C2 (witness): the kernel evaluated at the sample particle, whose
scalar accumulation equals its rotational energy `13+40+45 = 98`. -/
theorem scalar_kernel_witness :
    inGroup 1 samplePart = true ∧
    accumScalarLocal sampleBonus 1 [samplePart] = 98 := by
  refine ⟨by decide, ?_⟩
  have h := (scalar_kernel sampleBonus samplePart 1).2.2.2.2 (by decide)
  rw [h]
  simp only [samplePart, sampleBonus, inertiaOf, wbodyOf, quat_to_mat,
    transpose_matvec]
  norm_num

/-- C10: the single-particle `remove_bias`/`restore_bias` entry points
delegate unconditionally to the configured bias handle for every particle
index and velocity, independently of the handle's style and group, and
return the velocity unchanged when no bias handle is configured. -/
theorem single_bias_passthrough (b : Bias) (st : String) (g : Nat)
    (i : Nat) (v : Vec3) :
    remove_bias (some b) i v = b.removeBiasOne i v ∧
    restore_bias (some b) i v = b.restoreBiasOne i v ∧
    remove_bias none i v = v ∧
    restore_bias none i v = v ∧
    remove_bias (some { b with style := st, igroup := g }) i v = b.removeBiasOne i v ∧
    restore_bias (some { b with style := st, igroup := g }) i v = b.restoreBiasOne i v :=
  ⟨rfl, rfl, rfl, rfl, rfl, rfl⟩

/-- C3: `dof_compute` yields `nper*natoms` (`nper` 6 in 3d, 3 in 2d,
`natoms` the globally counted group population) minus adjustments: the
bias-reported global dof count times `natoms` for a global-kind bias,
`nper` times the cross-worker sum of group particles satisfying the
bias's per-particle `dof_remove` predicate for a region-local bias, and
finally the `extra_dof` correction plus the stored fix dof sum. -/
theorem dof_accounting (env : Env) (workers : List (List Particle))
    (s : ComputeState) :
    (s.tempbias = 0 →
      (dof_compute env workers s).dof =
        (if env.dimension = 2 then (3 : ℚ) else 6) * groupCount s.groupbit workers -
          (s.extra_dof + s.fix_dof)) ∧
    (∀ b, s.tempbias = 1 → s.tbias = some b →
      (dof_compute env workers s).dof =
        (if env.dimension = 2 then (3 : ℚ) else 6) * groupCount s.groupbit workers -
          b.dofRemoveGlobal * groupCount s.groupbit workers -
          (s.extra_dof + s.fix_dof)) ∧
    (∀ b, s.tempbias = 2 → s.tbias = some b →
      (dof_compute env workers s).dof =
        (if env.dimension = 2 then (3 : ℚ) else 6) * groupCount s.groupbit workers -
          (if env.dimension = 2 then (3 : ℚ) else 6) *
            (dofRemoveCountAll s.groupbit b workers : ℚ) -
          (s.extra_dof + s.fix_dof)) := by
  refine ⟨fun h0 => ?_, fun b h1 hb => ?_, fun b h2 hb => ?_⟩
  · simp [dof_compute, h0]
  · simp [dof_compute, h1, hb]
  · simp [dof_compute, h2, hb]

/-- C3 (witness): with the region bias, one group particle satisfying
the removal predicate, `extra_dof = 2` and `fix_dof = 1`, the dof is
`6*1 - 6*1 - 3 = -3`. -/
theorem dof_accounting_witness :
    (dof_compute sampleEnv sampleWorkers sampleStateRegion).dof = -3 := by
  have h := (dof_accounting sampleEnv sampleWorkers sampleStateRegion).2.2
    sampleBias rfl rfl
  rw [h]
  have hcnt : dofRemoveCountAll sampleStateRegion.groupbit sampleBias sampleWorkers = 1 := by
    decide
  have hgc : groupCount sampleStateRegion.groupbit sampleWorkers = 1 := by decide
  rw [hcnt, hgc]
  norm_num [sampleEnv, sampleStateRegion, sampleState]

/-- C4: a non-positive computed dof makes `dof_compute` set the scale
factor to exactly 0, and `compute_scalar` then returns 0: on the static
path whenever the stored scale factor is 0, and on the recomputing
(dynamic or region-bias) path whenever the freshly computed dof is
non-positive. -/
theorem nonpositive_dof_graceful (env : Env) (workers : List (List Particle))
    (step : Int) (s : ComputeState) :
    ((dof_compute env workers s).dof ≤ 0 →
      (dof_compute env workers s).tfactor = 0) ∧
    (¬ (s.dynamic = true ∨ s.tempbias = 2) → s.tfactor = 0 →
      (compute_scalar env workers step s).value = 0) ∧
    ((s.dynamic = true ∨ s.tempbias = 2) →
      (compute_scalar env workers step s).state.dof ≤ 0 →
      (compute_scalar env workers step s).value = 0) := by
  refine ⟨dofCompute_tfactor_zero env workers s, fun hc ht => ?_, fun hc hd => ?_⟩
  · rw [compute_scalar_value, (compute_scalar_state_static env workers step s hc).1,
      ht, mul_zero]
  · rw [compute_scalar_value, (compute_scalar_state_recompute env workers step s hc).1]
    rw [(compute_scalar_state_recompute env workers step s hc).2] at hd
    rw [dofCompute_tfactor_zero _ _ _ hd, mul_zero]

/-- C4 (witness): with the region bias forcing dof `= -3 ≤ 0`, the
recomputing scalar path returns 0 even though the particle has nonzero
angular momentum. -/
theorem nonpositive_dof_graceful_witness :
    (compute_scalar sampleEnv sampleWorkers 1 sampleStateRegion).value = 0 := by
  refine (nonpositive_dof_graceful sampleEnv sampleWorkers 1 sampleStateRegion).2.2
    (Or.inr rfl) ?_
  rw [(compute_scalar_state_recompute sampleEnv sampleWorkers 1 sampleStateRegion
    (Or.inr rfl)).2]
  have h := (dof_accounting sampleEnv
    (restoreWorkers sampleStateRegion (stripWorkers sampleStateRegion sampleWorkers))
    sampleStateRegion).2.2 sampleBias rfl rfl
  rw [h]
  have hcnt : dofRemoveCountAll sampleStateRegion.groupbit sampleBias
      (restoreWorkers sampleStateRegion (stripWorkers sampleStateRegion sampleWorkers)) = 1 := by
    decide
  have hgc : groupCount sampleStateRegion.groupbit
      (restoreWorkers sampleStateRegion (stripWorkers sampleStateRegion sampleWorkers)) = 1 := by
    decide
  rw [hcnt, hgc]
  norm_num [sampleEnv, sampleStateRegion, sampleState]

/-- C5: the scalar result is the globally reduced energy sum times the
scale factor, where the dof (and with it the scale factor
`mvv2e/(dof*boltz)` when the dof is positive) is recomputed before
scaling exactly when the state is dynamic or the bias is region-local;
the tensor result is the reduced six-vector scaled elementwise by
`mvv2e` alone, with no dof recomputation. -/
theorem result_scaling (env : Env) (workers : List (List Particle))
    (step : Int) (s : ComputeState) :
    ((s.dynamic = true ∨ s.tempbias = 2) →
      (compute_scalar env workers step s).value =
        scalarRawSum env.bonus s.groupbit (stripWorkers s workers) *
          (dof_compute env (restoreWorkers s (stripWorkers s workers)) s).tfactor ∧
      (compute_scalar env workers step s).state.dof =
        (dof_compute env (restoreWorkers s (stripWorkers s workers)) s).dof) ∧
    (¬ (s.dynamic = true ∨ s.tempbias = 2) →
      (compute_scalar env workers step s).value =
        scalarRawSum env.bonus s.groupbit (stripWorkers s workers) * s.tfactor ∧
      (compute_scalar env workers step s).state.dof = s.dof ∧
      (compute_scalar env workers step s).state.tfactor = s.tfactor) ∧
    (0 < (dof_compute env workers s).dof →
      (dof_compute env workers s).tfactor =
        env.mvv2e / ((dof_compute env workers s).dof * env.boltz)) ∧
    (compute_vector env workers step s).value =
      ⟨env.mvv2e * (tensorRawSum env.bonus s.groupbit (stripWorkers s workers)).xx,
       env.mvv2e * (tensorRawSum env.bonus s.groupbit (stripWorkers s workers)).yy,
       env.mvv2e * (tensorRawSum env.bonus s.groupbit (stripWorkers s workers)).zz,
       env.mvv2e * (tensorRawSum env.bonus s.groupbit (stripWorkers s workers)).xy,
       env.mvv2e * (tensorRawSum env.bonus s.groupbit (stripWorkers s workers)).xz,
       env.mvv2e * (tensorRawSum env.bonus s.groupbit (stripWorkers s workers)).yz⟩ ∧
    (compute_vector env workers step s).state.dof = s.dof ∧
    (compute_vector env workers step s).state.tfactor = s.tfactor := by
  refine ⟨fun hc => ?_, fun hc => ?_, fun hpos => ?_, rfl, rfl, rfl⟩
  · refine ⟨?_, (compute_scalar_state_recompute env workers step s hc).2⟩
    rw [compute_scalar_value,
      (compute_scalar_state_recompute env workers step s hc).1]
  · refine ⟨?_, (compute_scalar_state_static env workers step s hc).2,
      (compute_scalar_state_static env workers step s hc).1⟩
    rw [compute_scalar_value,
      (compute_scalar_state_static env workers step s hc).1]
  · simp only [dof_compute] at hpos ⊢
    rw [if_pos hpos]

/-- C5 (witness): with no bias and a static state, the scalar result is
the raw sum 98 times the stored scale factor 0; with the dynamic state
the freshly computed dof is `6-3 = 3 > 0` and the scale factor becomes
`1/(3*1) = 1/3`. -/
theorem result_scaling_witness :
    (compute_scalar sampleEnv sampleWorkers 1 sampleState).value =
      scalarRawSum sampleEnv.bonus sampleState.groupbit
        (stripWorkers sampleState sampleWorkers) * sampleState.tfactor ∧
    (compute_scalar sampleEnv sampleWorkers 1 sampleStateDyn).value =
      scalarRawSum sampleEnv.bonus sampleStateDyn.groupbit
        (stripWorkers sampleStateDyn sampleWorkers) *
        (dof_compute sampleEnv
          (restoreWorkers sampleStateDyn (stripWorkers sampleStateDyn sampleWorkers))
          sampleStateDyn).tfactor ∧
    (dof_compute sampleEnv sampleWorkers sampleState).tfactor = 1 / 3 := by
  refine ⟨((result_scaling sampleEnv sampleWorkers 1 sampleState).2.1
    (by decide)).1,
    ((result_scaling sampleEnv sampleWorkers 1 sampleStateDyn).1
    (Or.inl rfl)).1, ?_⟩
  have h := (result_scaling sampleEnv sampleWorkers 1 sampleState).2.2.1 ?hpos
  case hpos =>
    have h0 := (dof_accounting sampleEnv sampleWorkers sampleState).1 rfl
    rw [h0]
    have hgc : groupCount sampleState.groupbit sampleWorkers = 1 := by decide
    rw [hgc]
    norm_num [sampleEnv, sampleState]
  rw [h]
  have h0 := (dof_accounting sampleEnv sampleWorkers sampleState).1 rfl
  rw [h0]
  have hgc : groupCount sampleState.groupbit sampleWorkers = 1 := by decide
  rw [hgc]
  norm_num [sampleEnv, sampleState]

/-- C6: the sum of the trace components (xx, yy, zz) of the tensor
produced by `compute_vector` equals the energy sum accumulated by the
scalar path before its dof scaling, times the dof-free units factor
`mvv2e`. -/
theorem trace_consistency (env : Env) (workers : List (List Particle))
    (step : Int) (s : ComputeState) :
    (compute_vector env workers step s).value.xx +
      (compute_vector env workers step s).value.yy +
      (compute_vector env workers step s).value.zz =
      env.mvv2e * scalarRawSum env.bonus s.groupbit (stripWorkers s workers) := by
  have h := rawSum_trace env.bonus s.groupbit (stripWorkers s workers)
  show env.mvv2e * (tensorRawSum env.bonus s.groupbit (stripWorkers s workers)).xx +
      env.mvv2e * (tensorRawSum env.bonus s.groupbit (stripWorkers s workers)).yy +
      env.mvv2e * (tensorRawSum env.bonus s.groupbit (stripWorkers s workers)).zz =
      env.mvv2e * scalarRawSum env.bonus s.groupbit (stripWorkers s workers)
  rw [← h]
  simp only [vtrace]
  ring

lemma map_map_inverse {α : Type} (f g : α → α) (h : ∀ a, g (f a) = a) :
    ∀ l : List α, (l.map f).map g = l := by
  intro l
  induction l with
  | nil => rfl
  | cons a t ih => simp [h, ih]

/-- C7: with a bias configured, both evaluation paths bulk-remove the
bias, accumulate on the stripped velocities, then bulk-restore, so when
restoration inverts removal the particle data is returned unchanged;
with no bias the particle data is not touched at all. -/
theorem bias_bracket (env : Env) (workers : List (List Particle))
    (step : Int) (s : ComputeState) :
    (s.tempbias = 0 →
      (compute_scalar env workers step s).workers = workers ∧
      (compute_vector env workers step s).workers = workers) ∧
    (∀ b, s.tempbias ≠ 0 → s.tbias = some b →
      (compute_scalar env workers step s).workers =
        (workers.map b.removeBiasAll).map b.restoreBiasAll ∧
      (compute_scalar env workers step s).value =
        scalarRawSum env.bonus s.groupbit (workers.map b.removeBiasAll) *
          (compute_scalar env workers step s).state.tfactor ∧
      (compute_vector env workers step s).workers =
        (workers.map b.removeBiasAll).map b.restoreBiasAll ∧
      ((∀ l, b.restoreBiasAll (b.removeBiasAll l) = l) →
        (compute_scalar env workers step s).workers = workers ∧
        (compute_vector env workers step s).workers = workers)) := by
  constructor
  · intro h0
    rw [compute_scalar_workers, compute_vector_workers]
    simp [stripWorkers, restoreWorkers, h0]
  · intro b h0 hb
    have hstrip : stripWorkers s workers = workers.map b.removeBiasAll := by
      simp [stripWorkers, h0, hb]
    have hrest : ∀ ws', restoreWorkers s ws' = ws'.map b.restoreBiasAll := by
      intro ws'
      simp [restoreWorkers, h0, hb]
    refine ⟨?_, ?_, ?_, fun hinv => ?_⟩
    · rw [compute_scalar_workers, hstrip, hrest]
    · rw [compute_scalar_value, hstrip]
    · rw [compute_vector_workers, hstrip, hrest]
    · rw [compute_scalar_workers, compute_vector_workers, hstrip, hrest]
      exact ⟨map_map_inverse _ _ hinv workers, map_map_inverse _ _ hinv workers⟩

/-- C7 (witness): with the sample region bias (subtract then re-add 1 to
each x velocity) both entry points hand back the original particle
data. -/
theorem bias_bracket_witness :
    (compute_scalar sampleEnv sampleWorkers 3 sampleStateRegion).workers =
      sampleWorkers ∧
    (compute_vector sampleEnv sampleWorkers 3 sampleStateRegion).workers =
      sampleWorkers := by
  have hinv : ∀ l, sampleBias.restoreBiasAll (sampleBias.removeBiasAll l) = l := by
    intro l
    refine map_map_inverse _ _ (fun p => ?_) l
    cases p with
    | mk v angmom rmass mask ellipsoid =>
      cases v with
      | mk x y z => simp [sampleBias]
  exact ((bias_bracket sampleEnv sampleWorkers 3 sampleStateRegion).2 sampleBias
    (by decide) rfl).2.2.2 hinv

lemma dof_compute_stable (env : Env) (ws : List (List Particle))
    (t : ComputeState) :
    (dof_compute env ws (dof_compute env ws t)).dof = (dof_compute env ws t).dof ∧
    (dof_compute env ws (dof_compute env ws t)).tfactor =
      (dof_compute env ws t).tfactor := ⟨rfl, rfl⟩

lemma init_flat_error (env : Env) (ws : List (List Particle))
    (registry : List (String × Bias)) (s : ComputeState)
    (hflat : (ws.flatten).any (fun p => inGroup s.groupbit p && p.ellipsoid < 0) = true) :
    init env ws registry s =
      Except.error "Compute temp/asphere requires extended particles" := by
  simp only [init]
  rw [if_pos hflat]

lemma init_none_ok (env : Env) (ws : List (List Particle))
    (registry : List (String × Bias)) (s : ComputeState)
    (hflat : ¬ (ws.flatten).any (fun p => inGroup s.groupbit p && p.ellipsoid < 0) = true)
    (hid : s.id_bias = none) :
    init env ws registry s =
      Except.ok (dof_compute env ws
        { s with fix_dof := (env.fixes.map (fun f => f s.igroup)).sum }) := by
  simp only [init, hid]
  rw [if_neg hflat]

lemma init_find_none_error (env : Env) (ws : List (List Particle))
    (registry : List (String × Bias)) (s : ComputeState) (id : String)
    (hflat : ¬ (ws.flatten).any (fun p => inGroup s.groupbit p && p.ellipsoid < 0) = true)
    (hid : s.id_bias = some id)
    (hfind : registry.find? (fun pr => pr.1 == id) = none) :
    init env ws registry s =
      Except.error "Could not find compute ID for temperature bias" := by
  simp only [init, hid, hfind]
  rw [if_neg hflat]

lemma init_tempflag_error (env : Env) (ws : List (List Particle))
    (registry : List (String × Bias)) (s : ComputeState) (id : String)
    (pr : String × Bias)
    (hflat : ¬ (ws.flatten).any (fun p => inGroup s.groupbit p && p.ellipsoid < 0) = true)
    (hid : s.id_bias = some id)
    (hfind : registry.find? (fun pr2 => pr2.1 == id) = some pr)
    (h1 : pr.2.tempflag = false) :
    init env ws registry s =
      Except.error "Bias compute does not calculate temperature" := by
  simp only [init, hid, hfind]
  rw [if_neg hflat, if_pos h1]

lemma init_tempbias_error (env : Env) (ws : List (List Particle))
    (registry : List (String × Bias)) (s : ComputeState) (id : String)
    (pr : String × Bias)
    (hflat : ¬ (ws.flatten).any (fun p => inGroup s.groupbit p && p.ellipsoid < 0) = true)
    (hid : s.id_bias = some id)
    (hfind : registry.find? (fun pr2 => pr2.1 == id) = some pr)
    (h1 : ¬ pr.2.tempflag = false) (h2 : pr.2.tempbias = false) :
    init env ws registry s =
      Except.error "Bias compute does not calculate a velocity bias" := by
  simp only [init, hid, hfind]
  rw [if_neg hflat, if_neg h1, if_pos h2]

lemma init_group_error (env : Env) (ws : List (List Particle))
    (registry : List (String × Bias)) (s : ComputeState) (id : String)
    (pr : String × Bias)
    (hflat : ¬ (ws.flatten).any (fun p => inGroup s.groupbit p && p.ellipsoid < 0) = true)
    (hid : s.id_bias = some id)
    (hfind : registry.find? (fun pr2 => pr2.1 == id) = some pr)
    (h1 : ¬ pr.2.tempflag = false) (h2 : ¬ pr.2.tempbias = false)
    (h3 : pr.2.igroup ≠ s.igroup) :
    init env ws registry s =
      Except.error "Bias compute group does not match compute group" := by
  simp only [init, hid, hfind]
  rw [if_neg hflat, if_neg h1, if_neg h2, if_pos h3]

lemma init_bias_ok (env : Env) (ws : List (List Particle))
    (registry : List (String × Bias)) (s : ComputeState) (id : String)
    (pr : String × Bias)
    (hflat : ¬ (ws.flatten).any (fun p => inGroup s.groupbit p && p.ellipsoid < 0) = true)
    (hid : s.id_bias = some id)
    (hfind : registry.find? (fun pr2 => pr2.1 == id) = some pr)
    (h1 : ¬ pr.2.tempflag = false) (h2 : ¬ pr.2.tempbias = false)
    (h3 : ¬ pr.2.igroup ≠ s.igroup) :
    init env ws registry s =
      Except.ok (dof_compute env ws
        { s with tbias := some pr.2,
                 tempbias := if pr.2.style == "temp/region" then 2 else 1,
                 fix_dof := (env.fixes.map (fun f => f s.igroup)).sum }) := by
  simp only [init, hid, hfind]
  rw [if_neg hflat, if_neg h1, if_neg h2, if_neg h3]

lemma init_ok_cases (env : Env) (ws : List (List Particle))
    (registry : List (String × Bias)) (s s' : ComputeState)
    (hok : init env ws registry s = Except.ok s') :
    s'.fix_dof = (env.fixes.map (fun f => f s.igroup)).sum ∧
    s'.dof = (dof_compute env ws s').dof ∧
    s'.tfactor = (dof_compute env ws s').tfactor := by
  by_cases hflat :
      (ws.flatten).any (fun p => inGroup s.groupbit p && p.ellipsoid < 0) = true
  · rw [init_flat_error env ws registry s hflat] at hok
    exact Except.noConfusion hok
  · cases hid : s.id_bias with
    | none =>
      rw [init_none_ok env ws registry s hflat hid] at hok
      injection hok with hok
      subst hok
      exact ⟨rfl, rfl, rfl⟩
    | some id =>
      cases hfind : registry.find? (fun pr => pr.1 == id) with
      | none =>
        rw [init_find_none_error env ws registry s id hflat hid hfind] at hok
        exact Except.noConfusion hok
      | some pr =>
        by_cases h1 : pr.2.tempflag = false
        · rw [init_tempflag_error env ws registry s id pr hflat hid hfind h1] at hok
          exact Except.noConfusion hok
        · by_cases h2 : pr.2.tempbias = false
          · rw [init_tempbias_error env ws registry s id pr hflat hid hfind h1 h2] at hok
            exact Except.noConfusion hok
          · by_cases h3 : pr.2.igroup ≠ s.igroup
            · rw [init_group_error env ws registry s id pr hflat hid hfind h1 h2 h3] at hok
              exact Except.noConfusion hok
            · rw [init_bias_ok env ws registry s id pr hflat hid hfind h1 h2 h3] at hok
              injection hok with hok
              subst hok
              exact ⟨rfl, rfl, rfl⟩

/-- C8: `init` fails exactly when some group particle has no ellipsoid
record, or a bias ID is configured and the registry does not resolve it,
or the resolved bias computes no temperature, computes no velocity bias,
or watches a different group; on success the returned state carries the
dof and scale factor that `dof_compute` yields for it. -/
theorem init_error_conditions (env : Env) (workers : List (List Particle))
    (registry : List (String × Bias)) (s : ComputeState) :
    ((∃ e, init env workers registry s = Except.error e) ↔
      ((workers.flatten).any (fun p => inGroup s.groupbit p && p.ellipsoid < 0) = true ∨
        ∃ id, s.id_bias = some id ∧
          (registry.find? (fun pr => pr.1 == id) = none ∨
            ∃ pr, registry.find? (fun pr2 => pr2.1 == id) = some pr ∧
              (pr.2.tempflag = false ∨ pr.2.tempbias = false ∨
                pr.2.igroup ≠ s.igroup)))) ∧
    (∀ s', init env workers registry s = Except.ok s' →
      s'.dof = (dof_compute env workers s').dof ∧
      s'.tfactor = (dof_compute env workers s').tfactor) := by
  constructor
  · by_cases hflat :
        (workers.flatten).any (fun p => inGroup s.groupbit p && p.ellipsoid < 0) = true
    · constructor
      · intro _
        exact Or.inl hflat
      · intro _
        exact ⟨_, init_flat_error env workers registry s hflat⟩
    · cases hid : s.id_bias with
      | none =>
        constructor
        · rintro ⟨e, hcontra⟩
          rw [init_none_ok env workers registry s hflat hid] at hcontra
          exact Except.noConfusion hcontra
        · rintro (h | ⟨id', hid', _⟩)
          · exact absurd h hflat
          · exact Option.noConfusion hid'
      | some id =>
        cases hfind : registry.find? (fun pr => pr.1 == id) with
        | none =>
          constructor
          · intro _
            exact Or.inr ⟨id, rfl, Or.inl hfind⟩
          · intro _
            exact ⟨_, init_find_none_error env workers registry s id hflat hid hfind⟩
        | some pr =>
          by_cases h1 : pr.2.tempflag = false
          · constructor
            · intro _
              exact Or.inr ⟨id, rfl, Or.inr ⟨pr, hfind, Or.inl h1⟩⟩
            · intro _
              exact ⟨_, init_tempflag_error env workers registry s id pr hflat hid hfind h1⟩
          · by_cases h2 : pr.2.tempbias = false
            · constructor
              · intro _
                exact Or.inr ⟨id, rfl, Or.inr ⟨pr, hfind, Or.inr (Or.inl h2)⟩⟩
              · intro _
                exact ⟨_, init_tempbias_error env workers registry s id pr hflat hid hfind h1 h2⟩
            · by_cases h3 : pr.2.igroup ≠ s.igroup
              · constructor
                · intro _
                  exact Or.inr ⟨id, rfl, Or.inr ⟨pr, hfind, Or.inr (Or.inr h3)⟩⟩
                · intro _
                  exact ⟨_, init_group_error env workers registry s id pr hflat hid hfind h1 h2 h3⟩
              · constructor
                · rintro ⟨e, hcontra⟩
                  rw [init_bias_ok env workers registry s id pr hflat hid hfind h1 h2 h3] at hcontra
                  exact Except.noConfusion hcontra
                · rintro (h | ⟨id', hid', hrest⟩)
                  · exact absurd h hflat
                  · injection hid' with hid'
                    subst hid'
                    rcases hrest with hnone | ⟨pr', hfind', hflags⟩
                    · rw [hfind] at hnone
                      exact Option.noConfusion hnone
                    · rw [hfind] at hfind'
                      injection hfind' with hfind'
                      subst hfind'
                      rcases hflags with f1 | f2 | f3
                      · exact absurd f1 h1
                      · exact absurd f2 h2
                      · exact absurd f3 h3
  · intro s' hok
    exact (init_ok_cases env workers registry s s' hok).2

/-- The state `init` returns for the sample bias-free configuration. -/
def sampleInitState : ComputeState :=
  dof_compute sampleEnv sampleWorkers
    { sampleState with
      fix_dof := (sampleEnv.fixes.map (fun f => f sampleState.igroup)).sum }

/-- C8 (witness): the sample configuration passes every check, `init`
succeeds, and the returned state's dof agrees with `dof_compute` on it. -/
theorem init_error_conditions_witness :
    init sampleEnv sampleWorkers [] sampleState = Except.ok sampleInitState ∧
    sampleInitState.dof = (dof_compute sampleEnv sampleWorkers sampleInitState).dof := by
  refine ⟨rfl, ?_⟩
  exact ((init_error_conditions sampleEnv sampleWorkers [] sampleState).2
    sampleInitState rfl).1

/-- C9: the fix registry's dof contributions are read only by `init`,
which stores their sum in `fix_dof`; `dof_compute` and the scalar path's
automatic recomputation give the same results under any other registry
contents, so constraints changed after initialization have no effect
until re-initialization. -/
theorem fix_dof_cached (env : Env) (fixes' : List (Nat → ℚ))
    (workers : List (List Particle)) (registry : List (String × Bias))
    (step : Int) (s : ComputeState) :
    dof_compute { env with fixes := fixes' } workers s = dof_compute env workers s ∧
    compute_scalar { env with fixes := fixes' } workers step s =
      compute_scalar env workers step s ∧
    (∀ s', init env workers registry s = Except.ok s' →
      s'.fix_dof = (env.fixes.map (fun f => f s.igroup)).sum) := by
  refine ⟨rfl, rfl, fun s' hok => ?_⟩
  exact (init_ok_cases env workers registry s s' hok).1

/-- C9 (witness): after the sample initialization the stored fix dof sum
is `3 + 4 = 7`. -/
theorem fix_dof_cached_witness : sampleInitState.fix_dof = 7 := by
  have h := (fix_dof_cached sampleEnv [] sampleWorkers [] 0 sampleState).2.2
    sampleInitState rfl
  rw [h]
  norm_num [sampleEnv, sampleState, List.sum_cons, List.sum_nil]

end TempAsphere
